import Mathlib

/-!
Verification of `slack_delete.py`: a shallow embedding of its three
functions (`list_files`, `delete_files`, `main`) and proofs of the
specified properties.  Remote HTTP interaction is modelled by explicit
response oracles; console output, requests and sleeps are modelled as an
event trace; Python exceptions are modelled by an `Exn` value threaded
through the results.
-/

namespace SlackDelete

/-- Python exceptions relevant to the script: `KeyboardInterrupt` is
handled specially in `main`; every other exception is `other` with its
name. -/
inductive Exn where
  | keyboardInterrupt : Exn
  | other : String → Exn
deriving DecidableEq

/-- `mimetypes` tuple from the source: categories of files to delete. -/
def mimetypes : List String := ["audio", "image", "video"]

/-- `wait_seconds = 2` from the source: inter-request delay. -/
def wait_seconds : Nat := 2

/-- Python substring containment `pat in hay` on strings: the character
sequence of `pat` occurs contiguously inside that of `hay`. -/
def strContains (hay pat : String) : Bool :=
  decide (pat.toList <:+: hay.toList)

/-- The filter predicate from `list_files`:
`any([mimetype in f['mimetype'] for mimetype in mimetypes])`. -/
def matchesMime (m : String) : Bool :=
  mimetypes.any (fun mimetype => strContains m mimetype)

/-- A raw file object from the remote listing response, with the fields
the script reads: `id`, `name`, `timestamp` (epoch seconds), `mimetype`,
`size`. -/
structure RawFile where
  id : String
  name : String
  timestamp : Int
  mimetype : String
  size : Int
deriving DecidableEq

/-- A normalized record built by `list_files`: the timestamp has been
formatted to a string via `datetime.fromtimestamp(...).strftime(...)`. -/
structure FileRec where
  id : String
  name : String
  timestamp : String
  mimetype : String
  size : Int
deriving DecidableEq

/-- The record `list_files` appends for a matching raw file; `fmt` models
the timestamp formatting `datetime.fromtimestamp(ts).strftime(...)`. -/
def toRec (fmt : Int → String) (f : RawFile) : FileRec :=
  { id := f.id, name := f.name, timestamp := fmt f.timestamp,
    mimetype := f.mimetype, size := f.size }

/-- `calculate_days`: `int(time.time()) - days * 24 * 60 * 60`, with the
current clock passed explicitly as `now`. -/
def calculate_days (days : Int) (now : Int) : Int :=
  now - days * 24 * 60 * 60

/-- The query parameters `list_files` sends to the listing endpoint:
`token`, `count`, and `ts_to` present only when `days` is truthy. -/
structure ListParams where
  token : String
  count : Int
  ts_to : Option Int
deriving DecidableEq

/-- Parameter construction in `list_files`: `if days:` includes
`ts_to = calculate_days(days)`, else only `token` and `count`. -/
def list_files_params (token : String) (days count now : Int) : ListParams :=
  if days ≠ 0 then
    { token := token, count := count, ts_to := some (calculate_days days now) }
  else
    { token := token, count := count, ts_to := none }

/-- The filtering loop of `list_files`: for each raw file of the response,
append its normalized record iff its mimetype matches a category. -/
def list_files_records (fmt : Int → String) (resp : List RawFile) : List FileRec :=
  resp.filterMap (fun f => if matchesMime f.mimetype then some (toRec fmt f) else none)

/-- `list_files` as a whole: the request parameters it sends, and the
record list it returns given the remote response `resp`. -/
def list_files (token : String) (days count now : Int) (fmt : Int → String)
    (resp : List RawFile) : ListParams × List FileRec :=
  (list_files_params token days count now, list_files_records fmt resp)

/-- Outcome of one `requests.get` + `json.loads` in the delete loop:
the parsed response has `ok = true`, or `ok = false` with its `error`
string, or the request/parsing itself raised an exception. -/
inductive DelResponse where
  | ok : DelResponse
  | err : String → DelResponse
  | exn : Exn → DelResponse
deriving DecidableEq

/-- Whether this per-item outcome is a raised exception. -/
def DelResponse.isExn : DelResponse → Bool
  | .exn _ => true
  | _ => false

/-- Observable effects of the script, in program order: console lines
(structured where the claims need their contents) plus the remote GET
requests and the sleeps of the delete loop. -/
inductive Event where
  | note : String → Event
  | initialSummary : Nat → Int → Event
  | tableListing : List (String × String × String × String × Int) → Event
  | request : String → String → String → Event
  | sleep : Nat → Event
  | logDeleted : String → String → String → Event
  | logFailed : String → String → String → Event
  | finalSummary : Int → Nat → Nat → Event
deriving DecidableEq

/-- The `for f in files:` loop of `delete_files`.  `i` numbers the
requests so the oracle `resp` can vary per item; `count` is the running
`count` variable (incremented before the request is sent).  Returns the
events of the loop, the final `count`, and the exception that escaped
the loop, if any.  On `.exn` the request happened but no sleep and no
log line follow, matching the statement order of the source. -/
def deleteLoop (token uri : String) (resp : Nat → DelResponse) :
    List FileRec → Nat → Nat → List Event × Nat × Option Exn
  | [], _, count => ([], count, none)
  | f :: fs, i, count =>
    match resp i with
    | .exn e => ([Event.request uri token f.id], count + 1, some e)
    | .ok =>
      let rest := deleteLoop token uri resp fs (i + 1) (count + 1)
      (Event.request uri token f.id :: Event.sleep wait_seconds ::
        Event.logDeleted f.id f.name f.timestamp :: rest.1, rest.2)
    | .err reason =>
      let rest := deleteLoop token uri resp fs (i + 1) (count + 1)
      (Event.request uri token f.id :: Event.sleep wait_seconds ::
        Event.logFailed f.id f.name reason :: rest.1, rest.2)

/-- `delete_files`: logs the summary and the table, returns early when
`view_only`, otherwise runs the delete loop; the `finally` block prints
the final summary on every path and re-raises any loop exception. -/
def delete_files (token : String) (files : List FileRec) (view_only : Bool)
    (resp : Nat → DelResponse) : List Event × Option Exn :=
  let uri := "https://slack.com/api/files.list"
  let size_to_delete := (files.map (fun f => f.size)).sum
  let num_files := files.length
  let front := [Event.initialSummary num_files size_to_delete,
    Event.tableListing (files.map (fun f => (f.id, f.name, f.timestamp, f.mimetype, f.size)))]
  if view_only then
    (front ++ [Event.finalSummary size_to_delete num_files 0], none)
  else
    let r := deleteLoop token uri resp files 0 0
    (front ++ r.1 ++ [Event.finalSummary size_to_delete num_files r.2.1], r.2.2)

/-- How the process ended in `main`: fell off the end normally, called
`exit(n)`, or an exception escaped unhandled. -/
inductive MainOutcome where
  | normal : MainOutcome
  | exitCode : Nat → MainOutcome
  | uncaught : Exn → MainOutcome
deriving DecidableEq

/-- `main` after argument parsing: runs the Lister then the Deleter
inside `try`, catching only `KeyboardInterrupt`, which prints the abort
notice and exits with status 1.  `listOutcome` abstracts the remote
listing call: either the raw response list or a raised exception. -/
def main_run (token : String) (dry_run : Bool) (fmt : Int → String)
    (listOutcome : Except Exn (List RawFile)) (delResp : Nat → DelResponse) :
    List Event × MainOutcome :=
  match listOutcome with
  | .error e =>
    if e = Exn.keyboardInterrupt then
      ([Event.note "[*] Fetching file list..", Event.note "\x08\x08[-] Aborted"],
        MainOutcome.exitCode 1)
    else
      ([Event.note "[*] Fetching file list.."], MainOutcome.uncaught e)
  | .ok raw =>
    let files := list_files_records fmt raw
    let d := delete_files token files dry_run delResp
    match d.2 with
    | some e =>
      if e = Exn.keyboardInterrupt then
        (Event.note "[*] Fetching file list.." :: Event.note "[*] Deleting files.." ::
          d.1 ++ [Event.note "\x08\x08[-] Aborted"], MainOutcome.exitCode 1)
      else
        (Event.note "[*] Fetching file list.." :: Event.note "[*] Deleting files.." :: d.1,
          MainOutcome.uncaught e)
    | none =>
      (Event.note "[*] Fetching file list.." :: Event.note "[*] Deleting files.." ::
        d.1 ++ [Event.note "[*] Done"], MainOutcome.normal)

/-- The remote GET requests of an event trace, as (uri, token, file id)
triples in trace order. -/
def requestEvents (evs : List Event) : List (String × String × String) :=
  evs.filterMap (fun e =>
    match e with
    | Event.request uri tok fid => some (uri, tok, fid)
    | _ => none)

/-- Every request in the trace is immediately followed by a sleep of
`wait_seconds`. -/
def reqThenSleep : List Event → Bool
  | [] => true
  | Event.request _ _ _ :: rest =>
    match rest with
    | Event.sleep n :: rest2 => n == wait_seconds && reqThenSleep rest2
    | _ => false
  | _ :: rest => reqThenSleep rest

/-! ## Theorems -/

/-- Claim C3: a file object appears in the Lister's returned record list
iff its mimetype contains "audio", "image" or "video" as a substring;
every other file object is excluded. -/
theorem claim_C3 (fmt : Int → String) (resp : List RawFile) (rec : FileRec) :
    rec ∈ list_files_records fmt resp ↔
      ∃ f, f ∈ resp ∧ matchesMime f.mimetype = true ∧ toRec fmt f = rec := by
  simp only [list_files_records, List.mem_filterMap]
  constructor
  · rintro ⟨f, hf, h⟩
    by_cases hm : matchesMime f.mimetype
    · simp only [hm, if_true, Option.some.injEq] at h
      exact ⟨f, hf, hm, h⟩
    · simp [hm] at h
  · rintro ⟨f, hf, hm, h⟩
    exact ⟨f, hf, by simp [hm, h]⟩

/-- Claim C4: for days N > 0 the listing request carries
`ts_to = now - N*86400`; for days = 0 the parameters are only the token
and the count, with no upper-bound timestamp. -/
theorem claim_C4 (token : String) (days count now : Int) :
    (0 < days →
      (list_files_params token days count now).ts_to = some (now - days * 86400)) ∧
    (days = 0 →
      list_files_params token days count now =
        { token := token, count := count, ts_to := none }) := by
  constructor
  · intro h
    have hne : days ≠ 0 := by omega
    simp only [list_files_params, hne, if_true, calculate_days, ne_eq,
      not_false_eq_true, Option.some.injEq]
    ring
  · intro h
    simp [list_files_params, h]

/-- Witness for C4 at days = 30, now = 2592000. -/
theorem claim_C4_witness :
    (list_files_params "t" 30 1000 2592000).ts_to = some (2592000 - 30 * 86400) ∧
    list_files_params "t" 0 1000 2592000 =
      { token := "t", count := 1000, ts_to := none } :=
  ⟨(claim_C4 "t" 30 1000 2592000).1 (by norm_num),
   (claim_C4 "t" 0 1000 2592000).2 rfl⟩

/-- Claim C9: for negative days the `ts_to` parameter is still sent and
equals `now - days*86400`, a timestamp in the future; the parameter is
omitted exactly when days = 0. -/
theorem claim_C9 (token : String) (count now days : Int) :
    (days < 0 →
      (list_files_params token days count now).ts_to = some (now - days * 86400) ∧
      now < now - days * 86400) ∧
    ((list_files_params token days count now).ts_to = none ↔ days = 0) := by
  constructor
  · intro h
    have hne : days ≠ 0 := by omega
    constructor
    · simp only [list_files_params, hne, if_true, calculate_days, ne_eq,
        not_false_eq_true, Option.some.injEq]
      ring
    · omega
  · by_cases hd : days = 0 <;> simp [list_files_params, hd]

/-- Witness for C9 at days = -1, now = 100. -/
theorem claim_C9_witness :
    (list_files_params "t" (-1) 5 100).ts_to = some (100 - (-1) * 86400) ∧
    (100 : Int) < 100 - (-1) * 86400 :=
  (claim_C9 "t" 5 100 (-1)).1 (by norm_num)

/-- Every request event produced by the delete loop carries the loop's
fixed uri and token. -/
lemma deleteLoop_request_mem (token uri : String) (resp : Nat → DelResponse) :
    ∀ (fs : List FileRec) (i c : Nat) (u t fid : String),
      Event.request u t fid ∈ (deleteLoop token uri resp fs i c).1 →
      u = uri ∧ t = token := by
  intro fs
  induction fs with
  | nil => intro i c u t fid h; simp [deleteLoop] at h
  | cons f fs ih =>
    intro i c u t fid h
    cases hr : resp i with
    | exn e =>
      simp only [deleteLoop, hr, List.mem_singleton, Event.request.injEq] at h
      exact ⟨h.1, h.2.1⟩
    | ok =>
      simp only [deleteLoop, hr, List.mem_cons, Event.request.injEq,
        reduceCtorEq, false_or] at h
      rcases h with ⟨h1, h2, _⟩ | h
      · exact ⟨h1, h2⟩
      · exact ih (i + 1) (c + 1) u t fid h
    | err reason =>
      simp only [deleteLoop, hr, List.mem_cons, Event.request.injEq,
        reduceCtorEq, false_or] at h
      rcases h with ⟨h1, h2, _⟩ | h
      · exact ⟨h1, h2⟩
      · exact ih (i + 1) (c + 1) u t fid h

/-- When no per-item call raises, the loop issues exactly one request per
record, carrying the record's id, in input order. -/
lemma deleteLoop_requests_noExn (token uri : String) (resp : Nat → DelResponse)
    (hok : ∀ j, (resp j).isExn = false) :
    ∀ (fs : List FileRec) (i c : Nat),
      requestEvents (deleteLoop token uri resp fs i c).1 =
        fs.map (fun f => (uri, token, f.id)) := by
  intro fs
  induction fs with
  | nil => intro i c; simp [deleteLoop, requestEvents]
  | cons f fs ih =>
    intro i c
    cases hr : resp i with
    | exn e =>
      have := hok i
      rw [hr] at this
      simp [DelResponse.isExn] at this
    | ok => simp [deleteLoop, hr, requestEvents, List.filterMap_cons] at ih ⊢; exact ih (i + 1) (c + 1)
    | err reason => simp [deleteLoop, hr, requestEvents, List.filterMap_cons] at ih ⊢; exact ih (i + 1) (c + 1)

/-- When no per-item call raises, every request of the loop is
immediately followed by the fixed sleep, for any continuation trace. -/
lemma deleteLoop_reqThenSleep (token uri : String) (resp : Nat → DelResponse)
    (hok : ∀ j, (resp j).isExn = false) :
    ∀ (fs : List FileRec) (i c : Nat) (tail : List Event),
      reqThenSleep ((deleteLoop token uri resp fs i c).1 ++ tail) = reqThenSleep tail := by
  intro fs
  induction fs with
  | nil => intro i c tail; simp [deleteLoop]
  | cons f fs ih =>
    intro i c tail
    cases hr : resp i with
    | exn e =>
      have := hok i
      rw [hr] at this
      simp [DelResponse.isExn] at this
    | ok =>
      simp only [deleteLoop, hr, List.cons_append, reqThenSleep,
        beq_self_eq_true, Bool.true_and]
      exact ih (i + 1) (c + 1) tail
    | err reason =>
      simp only [deleteLoop, hr, List.cons_append, reqThenSleep,
        beq_self_eq_true, Bool.true_and]
      exact ih (i + 1) (c + 1) tail

/-- When none of the first `fs.length` calls raises, the loop finishes
normally and its counter advances by one per record. -/
lemma deleteLoop_res_noExn (token uri : String) (resp : Nat → DelResponse) :
    ∀ (fs : List FileRec) (i c : Nat),
      (∀ j, j < fs.length → (resp (i + j)).isExn = false) →
      (deleteLoop token uri resp fs i c).2 = (c + fs.length, none) := by
  intro fs
  induction fs with
  | nil => intro i c _; simp [deleteLoop]
  | cons f fs ih =>
    intro i c h
    have h0 : (resp i).isExn = false := by simpa using h 0 (by simp)
    cases hr : resp i with
    | exn e => rw [hr] at h0; simp [DelResponse.isExn] at h0
    | ok =>
      have := ih (i + 1) (c + 1) (fun j hj => by
        have := h (j + 1) (by simpa using Nat.succ_lt_succ hj)
        simpa [Nat.add_assoc, Nat.add_comm 1 j] using this)
      simp only [deleteLoop, hr, this, List.length_cons]
      refine Prod.ext ?_ rfl
      simp
      omega
    | err reason =>
      have := ih (i + 1) (c + 1) (fun j hj => by
        have := h (j + 1) (by simpa using Nat.succ_lt_succ hj)
        simpa [Nat.add_assoc, Nat.add_comm 1 j] using this)
      simp only [deleteLoop, hr, this, List.length_cons]
      refine Prod.ext ?_ rfl
      simp
      omega

/-- When the call for the record at position `fs1.length` raises `e` and
no earlier call raises, the loop stops there with the exception, having
counted the in-flight record. -/
lemma deleteLoop_res_exnAt (token uri : String) (resp : Nat → DelResponse) :
    ∀ (fs1 : List FileRec) (f : FileRec) (fs2 : List FileRec) (i c : Nat) (e : Exn),
      (∀ j, j < fs1.length → (resp (i + j)).isExn = false) →
      resp (i + fs1.length) = DelResponse.exn e →
      (deleteLoop token uri resp (fs1 ++ f :: fs2) i c).2 = (c + fs1.length + 1, some e) := by
  intro fs1
  induction fs1 with
  | nil =>
    intro f fs2 i c e _ hr
    simp only [List.length_nil, Nat.add_zero] at hr
    simp [deleteLoop, hr]
  | cons g fs1 ih =>
    intro f fs2 i c e h hr
    have h0 : (resp i).isExn = false := by simpa using h 0 (by simp)
    have hr' : resp (i + 1 + fs1.length) = DelResponse.exn e := by
      have : i + 1 + fs1.length = i + (g :: fs1).length := by simp; omega
      rw [this]; exact hr
    have hrec := ih f fs2 (i + 1) (c + 1) e (fun j hj => by
      have := h (j + 1) (by simpa using Nat.succ_lt_succ hj)
      simpa [Nat.add_assoc, Nat.add_comm 1 j] using this) hr'
    have harith : c + 1 + fs1.length + 1 = c + (g :: fs1).length + 1 := by
      simp
      omega
    cases hg : resp i with
    | exn e2 => rw [hg] at h0; simp [DelResponse.isExn] at h0
    | ok =>
      simp only [deleteLoop, hg, List.cons_append, List.append_eq]
      rw [hrec, harith]
    | err reason =>
      simp only [deleteLoop, hg, List.cons_append, List.append_eq]
      rw [hrec, harith]

/-- A concrete record used to instantiate the theorems below. -/
def sampleRec : FileRec :=
  { id := "F1", name := "pic.png", timestamp := "2020-01-01 00:00:00",
    mimetype := "image/png", size := 100 }

/-- Claim C1: with the dry-run flag the Deleter issues no per-item
request; without it, and when every per-item call returns a response, it
issues exactly one request per record carrying that record's id, in
input order, each immediately followed by the fixed sleep, which is two
seconds. -/
theorem claim_C1 (token : String) (files : List FileRec) (resp : Nat → DelResponse) :
    requestEvents (delete_files token files true resp).1 = [] ∧
    ((∀ j, (resp j).isExn = false) →
      requestEvents (delete_files token files false resp).1 =
        files.map (fun f => ("https://slack.com/api/files.list", token, f.id)) ∧
      reqThenSleep (delete_files token files false resp).1 = true) ∧
    wait_seconds = 2 := by
  refine ⟨?_, ?_, rfl⟩
  · simp [delete_files, requestEvents]
  · intro hok
    have h1 := deleteLoop_requests_noExn token "https://slack.com/api/files.list" resp hok files 0 0
    have h2 := deleteLoop_reqThenSleep token "https://slack.com/api/files.list" resp hok files 0 0
    constructor
    · simp only [requestEvents] at h1 ⊢
      simp [delete_files, List.filterMap_append, h1]
    · simp only [delete_files, Bool.false_eq_true, if_false, List.append_assoc,
        List.cons_append, List.nil_append]
      simp only [reqThenSleep]
      rw [h2]
      simp [reqThenSleep]

/-- Witness for C1 with one record and an all-ok oracle. -/
theorem claim_C1_witness :
    requestEvents (delete_files "t" [sampleRec] false (fun _ => DelResponse.ok)).1 =
      [("https://slack.com/api/files.list", "t", sampleRec.id)] ∧
    reqThenSleep (delete_files "t" [sampleRec] false (fun _ => DelResponse.ok)).1 = true := by
  have h := (claim_C1 "t" [sampleRec] (fun _ => DelResponse.ok)).2.1 (fun j => rfl)
  simpa using h

/-- Claim C2: every per-item request of the delete loop is sent to the
listing endpoint, never to the deletion endpoint. -/
theorem claim_C2 (token : String) (files : List FileRec) (view_only : Bool)
    (resp : Nat → DelResponse) (u t fid : String) :
    Event.request u t fid ∈ (delete_files token files view_only resp).1 →
    u = "https://slack.com/api/files.list" ∧
    u ≠ "https://slack.com/api/files.delete" := by
  intro h
  cases view_only with
  | true => simp [delete_files] at h
  | false =>
    simp only [delete_files, Bool.false_eq_true, if_false, List.append_assoc,
      List.cons_append, List.nil_append, List.mem_cons, List.mem_append,
      List.mem_singleton, reduceCtorEq, false_or, or_false, List.not_mem_nil] at h
    have := deleteLoop_request_mem token "https://slack.com/api/files.list" resp
      files 0 0 u t fid h
    exact ⟨this.1, by rw [this.1]; decide⟩

/-- Witness for C2 with one record and an all-ok oracle. -/
theorem claim_C2_witness :
    "https://slack.com/api/files.list" = "https://slack.com/api/files.list" ∧
    "https://slack.com/api/files.list" ≠ "https://slack.com/api/files.delete" :=
  claim_C2 "t" [sampleRec] false (fun _ => DelResponse.ok)
    "https://slack.com/api/files.list" "t" "F1" (by decide)

/-- Claim C7: on a not-ok response the loop logs a failure line with the
remote-reported reason, does not retry the record, continues with the
remaining records, and still counts the record as attempted. -/
theorem claim_C7 (token uri : String) (resp : Nat → DelResponse) (f : FileRec)
    (fs : List FileRec) (i c : Nat) (reason : String) :
    resp i = DelResponse.err reason →
    deleteLoop token uri resp (f :: fs) i c =
      (Event.request uri token f.id :: Event.sleep wait_seconds ::
        Event.logFailed f.id f.name reason ::
          (deleteLoop token uri resp fs (i + 1) (c + 1)).1,
        (deleteLoop token uri resp fs (i + 1) (c + 1)).2) := by
  intro h
  simp [deleteLoop, h]

/-- Witness for C7 at the "not_found" example of the spec. -/
theorem claim_C7_witness :
    deleteLoop "t" "u" (fun _ => DelResponse.err "not_found") [sampleRec] 0 0 =
      (Event.request "u" "t" sampleRec.id :: Event.sleep wait_seconds ::
        Event.logFailed sampleRec.id sampleRec.name "not_found" ::
          (deleteLoop "t" "u" (fun _ => DelResponse.err "not_found") [] 1 1).1,
        (deleteLoop "t" "u" (fun _ => DelResponse.err "not_found") [] 1 1).2) :=
  claim_C7 "t" "u" (fun _ => DelResponse.err "not_found") sampleRec [] 0 0 "not_found" rfl

/-- The last element of a trace that ends in a fixed event. -/
lemma getLast?_append_singleton {α : Type} (xs : List α) (a : α) :
    (xs ++ [a]).getLast? = some a := by
  rw [List.getLast?_append_cons]
  rfl

/-- Claim C5: the byte total and file count logged in the initial and
the final summary equal the sum of the sizes and the length of the input
record list, for every oracle and mode. -/
theorem claim_C5 (token : String) (files : List FileRec) (view_only : Bool)
    (resp : Nat → DelResponse) :
    Event.initialSummary files.length ((files.map (fun f => f.size)).sum) ∈
      (delete_files token files view_only resp).1 ∧
    ∃ c, ((delete_files token files view_only resp).1).getLast? =
      some (Event.finalSummary ((files.map (fun f => f.size)).sum) files.length c) := by
  cases view_only with
  | true =>
    refine ⟨by simp [delete_files], 0, ?_⟩
    simp only [delete_files, if_true]
    rw [getLast?_append_singleton]
  | false =>
    refine ⟨by simp [delete_files],
      (deleteLoop token "https://slack.com/api/files.list" resp files 0 0).2.1, ?_⟩
    simp only [delete_files, Bool.false_eq_true, if_false, List.append_assoc]
    rw [← List.append_assoc, getLast?_append_singleton]

/-- Claim C6: the final summary line is the last event on every path,
dry-run, normal completion and mid-loop exception alike, and an
exception escaping the loop is re-raised, not suppressed, by the
`finally` block. -/
theorem claim_C6 (token : String) (files : List FileRec) (view_only : Bool)
    (resp : Nat → DelResponse) :
    (∃ s n c, ((delete_files token files view_only resp).1).getLast? =
      some (Event.finalSummary s n c)) ∧
    (∀ i e, i < files.length → resp i = DelResponse.exn e →
      (∀ j, j < i → (resp j).isExn = false) →
      (delete_files token files false resp).2 = some e) := by
  constructor
  · cases view_only with
    | true =>
      refine ⟨(files.map (fun f => f.size)).sum, files.length, 0, ?_⟩
      simp only [delete_files, if_true]
      rw [getLast?_append_singleton]
    | false =>
      refine ⟨(files.map (fun f => f.size)).sum, files.length,
        (deleteLoop token "https://slack.com/api/files.list" resp files 0 0).2.1, ?_⟩
      simp only [delete_files, Bool.false_eq_true, if_false, List.append_assoc]
      rw [← List.append_assoc, getLast?_append_singleton]
  · intro i e hi hre hok
    have hlen : (files.take i).length = i := by
      rw [List.length_take]
      omega
    have hsplit : files = files.take i ++ files[i] :: files.drop (i + 1) := by
      conv_lhs => rw [← List.take_append_drop i files]
      rw [List.drop_eq_getElem_cons hi]
    have hres := deleteLoop_res_exnAt token "https://slack.com/api/files.list" resp
      (files.take i) files[i] (files.drop (i + 1)) 0 0 e
      (by rw [hlen]; simpa using hok) (by rw [hlen]; simpa using hre)
    simp only [delete_files, Bool.false_eq_true, if_false]
    rw [hsplit, hres]

/-- Oracle for the exception witnesses: the second per-item call raises,
every other one succeeds. -/
def respBoom : Nat → DelResponse :=
  fun i => if i = 1 then DelResponse.exn (Exn.other "boom") else DelResponse.ok

/-- Witness for C6 with two records, the second per-item call raising. -/
theorem claim_C6_witness :
    (delete_files "t" [sampleRec, sampleRec] false respBoom).2 =
      some (Exn.other "boom") :=
  (claim_C6 "t" [sampleRec, sampleRec] false respBoom).2 1 (Exn.other "boom")
    (by decide) rfl (by decide)

/-- Claim C10: the attempted-deletion counter is incremented before the
request is issued, so when the call for the record after `fs1` raises,
the final summary reports `fs1.length + 1` attempted deletions, counting
the in-flight record. -/
theorem claim_C10 (token : String) (resp : Nat → DelResponse)
    (fs1 : List FileRec) (f : FileRec) (fs2 : List FileRec) (e : Exn) :
    (∀ j, j < fs1.length → (resp j).isExn = false) →
    resp fs1.length = DelResponse.exn e →
    ((delete_files token (fs1 ++ f :: fs2) false resp).1).getLast? =
      some (Event.finalSummary (((fs1 ++ f :: fs2).map (fun x => x.size)).sum)
        (fs1 ++ f :: fs2).length (fs1.length + 1)) ∧
    (delete_files token (fs1 ++ f :: fs2) false resp).2 = some e := by
  intro hok hexn
  have hres := deleteLoop_res_exnAt token "https://slack.com/api/files.list" resp
    fs1 f fs2 0 0 e (by simpa using hok) (by simpa using hexn)
  constructor
  · simp only [delete_files, Bool.false_eq_true, if_false, List.append_assoc]
    rw [← List.append_assoc, getLast?_append_singleton, hres]
    simp
  · simp only [delete_files, Bool.false_eq_true, if_false]
    rw [hres]

/-- Witness for C10: two records, the second per-item call raising; the
summary counts two attempted deletions. -/
theorem claim_C10_witness :
    ((delete_files "t" ([sampleRec] ++ sampleRec :: []) false respBoom).1).getLast? =
      some (Event.finalSummary ((([sampleRec] ++ sampleRec :: []).map (fun x => x.size)).sum)
        ([sampleRec] ++ sampleRec :: []).length ([sampleRec].length + 1)) ∧
    (delete_files "t" ([sampleRec] ++ sampleRec :: []) false respBoom).2 =
      some (Exn.other "boom") :=
  claim_C10 "t" respBoom [sampleRec] sampleRec [] (Exn.other "boom") (by decide) rfl

/-- Claim C8: a `KeyboardInterrupt` raised during the Lister → Deleter
sequence makes the entry point print the abort notice and exit with
status 1; any other exception escapes uncaught at the top level. -/
theorem claim_C8 (token : String) (dry_run : Bool) (fmt : Int → String)
    (listOutcome : Except Exn (List RawFile)) (delResp : Nat → DelResponse) :
    (listOutcome = Except.error Exn.keyboardInterrupt →
      (main_run token dry_run fmt listOutcome delResp).2 = MainOutcome.exitCode 1 ∧
      ((main_run token dry_run fmt listOutcome delResp).1).getLast? =
        some (Event.note "\x08\x08[-] Aborted")) ∧
    (∀ e, e ≠ Exn.keyboardInterrupt → listOutcome = Except.error e →
      (main_run token dry_run fmt listOutcome delResp).2 = MainOutcome.uncaught e) ∧
    (∀ raw e, listOutcome = Except.ok raw →
      (delete_files token (list_files_records fmt raw) dry_run delResp).2 = some e →
      (e = Exn.keyboardInterrupt →
        (main_run token dry_run fmt listOutcome delResp).2 = MainOutcome.exitCode 1 ∧
        ((main_run token dry_run fmt listOutcome delResp).1).getLast? =
          some (Event.note "\x08\x08[-] Aborted")) ∧
      (e ≠ Exn.keyboardInterrupt →
        (main_run token dry_run fmt listOutcome delResp).2 = MainOutcome.uncaught e)) := by
  refine ⟨?_, ?_, ?_⟩
  · intro h
    subst h
    exact ⟨rfl, rfl⟩
  · intro e he h
    subst h
    simp [main_run, he]
  · intro raw e hl hd
    subst hl
    constructor
    · intro he
      subst he
      constructor
      · simp only [main_run]
        rw [hd]
        simp
      · simp only [main_run]
        rw [hd]
        simp only [if_true, reduceIte]
        rw [getLast?_append_singleton]
    · intro he
      simp only [main_run]
      rw [hd]
      simp [he]

/-- Witness for C8: interruption during the listing call exits with 1
after printing the abort notice. -/
theorem claim_C8_witness :
    (main_run "t" false (fun _ => "ts") (Except.error Exn.keyboardInterrupt)
      (fun _ => DelResponse.ok)).2 = MainOutcome.exitCode 1 ∧
    ((main_run "t" false (fun _ => "ts") (Except.error Exn.keyboardInterrupt)
      (fun _ => DelResponse.ok)).1).getLast? = some (Event.note "\x08\x08[-] Aborted") :=
  (claim_C8 "t" false (fun _ => "ts") (Except.error Exn.keyboardInterrupt)
    (fun _ => DelResponse.ok)).1 rfl

end SlackDelete
